import Mathlib

/-!
Verification of the ngperf Angular performance analyzer
(src/ngperf/performance-analyzer.ts) against its natural-language
specification.

The TypeScript source is shallowly embedded below:

* JavaScript regular-expression probes that are only used through
  `RegExp.test` are embedded via a small Brzozowski-derivative matcher
  (`Rgx`), and the individual regex literals of the source are
  transcribed as `Rgx` values.
* Regular expressions used through `String.match` / repeated `exec`
  (i.e. where JavaScript's left-to-right non-overlapping match scanning
  and the captured groups matter) are embedded as direct text scanners;
  for each of them every quantifier in the original pattern is
  forced-munch (the character after a greedy class never belongs to the
  class), so direct maximal-munch scanning coincides with the
  backtracking behaviour of the JavaScript engine.  This is noted at
  each scanner.
* The TypeScript AST walks (`findManualSubscriptions`, `findImports`,
  metadata extraction) are embedded over a small `TsNode` tree type
  standing for the parse tree that `ts.createSourceFile` yields for the
  source text; a `SourceFileModel` carries the tree together with the
  raw text, mirroring how the analyzer keeps `this.sourceFile` next to
  `componentInfo.sourceCode`.
* `CodeLocation` values (line/column/snippet bookkeeping) are omitted
  from the finding records: no specification claim mentions them and
  they do not feed back into any analysis decision.
* JavaScript number semantics that matter are kept: the histogram of
  `generateProjectSummary` increments possibly-missing object keys, and
  `undefined + 1` is `NaN`; counts are therefore `Option Nat` with
  `none` playing NaN.  `Array.prototype.sort` is modelled as a stable
  insertion sort (ECMAScript requires sort to be stable, and
  `SortCompare` maps a NaN comparator result to `+0`, i.e. a tie).
-/

namespace NgPerf

/-! ## Character classes (ASCII fragments of the JavaScript classes) -/

/-- JavaScript `\w`, i.e. `[A-Za-z0-9_]`. -/
def isWordChar (c : Char) : Bool :=
  c.isAlpha || c.isDigit || c == '_'

/-- JavaScript `\s`, restricted to its ASCII members. -/
def isJsSpace (c : Char) : Bool :=
  c == ' ' || c == '\t' || c == '\n' || c == '\r' || c == '\x0b' || c == '\x0c'

/-- `sub.isPrefixOf l || ...` scan: JavaScript `String.prototype.includes`. -/
def listIncl (sub : List Char) : List Char → Bool
  | [] => sub.isEmpty
  | c :: rest => sub.isPrefixOf (c :: rest) || listIncl sub rest

/-- JavaScript `s.includes(sub)`. -/
def strIncludes (s sub : String) : Bool :=
  listIncl sub.toList s.toList

/-! ## A Brzozowski-derivative regex matcher for `RegExp.test`

Only the constructs appearing in the analyzer's regex literals are
supported.  `rtest r s` decides whether some substring of `s` is in the
language of `r`, which is exactly what `RegExp.prototype.test` reports. -/

/-- The character classes occurring in the analyzer's regexes. -/
inductive CClass where
  | anyCh            -- `[\s\S]` : any character
  | dotCh            -- `.` : any character except a newline
  | wordCh           -- `\w`
  | spaceCh          -- `\s`
  | notRParen        -- `[^)]`
  | notQuote         -- `[^"]`
  | litc (c : Char)  -- a literal character
  | litci (c : Char) -- a literal character under the `i` flag
deriving DecidableEq, Repr

def matchCl : CClass → Char → Bool
  | .anyCh, _ => true
  | .dotCh, c => c != '\n'
  | .wordCh, c => isWordChar c
  | .spaceCh, c => isJsSpace c
  | .notRParen, c => c != ')'
  | .notQuote, c => c != '"'
  | .litc d, c => c == d
  | .litci d, c => c.toLower == d.toLower

inductive Rgx where
  | bot                 -- matches nothing
  | eps                 -- matches the empty string
  | cls (k : CClass)
  | cat (a b : Rgx)
  | alt (a b : Rgx)
  | star (a : Rgx)
deriving DecidableEq, Repr

def nub : Rgx → Bool
  | .bot => false
  | .eps => true
  | .cls _ => false
  | .cat a b => nub a && nub b
  | .alt a b => nub a || nub b
  | .star _ => true

/-- Smart sequencing (keeps derivatives small). -/
def mkCat : Rgx → Rgx → Rgx
  | .bot, _ => .bot
  | .eps, b => b
  | a, b =>
    match b with
    | .bot => .bot
    | .eps => a
    | _ => .cat a b

/-- Smart alternation (keeps derivatives small). -/
def mkAlt : Rgx → Rgx → Rgx
  | .bot, b => b
  | a, b =>
    match b with
    | .bot => a
    | _ => .alt a b

def rderiv (c : Char) : Rgx → Rgx
  | .bot => .bot
  | .eps => .bot
  | .cls k => if matchCl k c then .eps else .bot
  | .cat a b =>
    if nub a then mkAlt (mkCat (rderiv c a) b) (rderiv c b)
    else mkCat (rderiv c a) b
  | .alt a b => mkAlt (rderiv c a) (rderiv c b)
  | .star a => mkCat (rderiv c a) (.star a)

/-- Whole-string membership. -/
def rfull (r : Rgx) (s : List Char) : Bool :=
  nub (s.foldl (fun r c => rderiv c r) r)

def anyStar : Rgx := .star (.cls .anyCh)

/-- JavaScript `new RegExp(r).test(s)`: some substring of `s` matches `r`. -/
def rtest (r : Rgx) (s : String) : Bool :=
  rfull (mkCat anyStar (mkCat r anyStar)) s.toList

/-! Short builders for transcribing the regex literals. -/

def rch (c : Char) : Rgx := .cls (.litc c)

/-- A case-sensitive literal string. -/
def rstr (s : String) : Rgx :=
  s.toList.foldr (fun c acc => mkCat (rch c) acc) .eps

/-- A literal string under the `i` flag. -/
def rstrCI (s : String) : Rgx :=
  s.toList.foldr (fun c acc => mkCat (Rgx.cls (.litci c)) acc) .eps

def rplus (r : Rgx) : Rgx := .cat r (.star r)

def rcatl (rs : List Rgx) : Rgx := rs.foldr mkCat .eps

def sStar : Rgx := .star (.cls .spaceCh)
def sPlus : Rgx := rplus (.cls .spaceCh)
def wPlus : Rgx := rplus (.cls .wordCh)
def noParenStar : Rgx := .star (.cls .notRParen)

/-- `[\s\S]{n,}` : at least `n` arbitrary characters. -/
def repAtLeast : Nat → Rgx
  | 0 => anyStar
  | n + 1 => .cat (.cls .anyCh) (repAtLeast n)

/-! ## The complexity-indicator probes of `shouldRecommendOnPush`

Each `Rgx` below transcribes one regex literal of the
`complexityIndicators` array (source lines 507-543), in source order. -/

def pCtorService : Rgx :=
  rcatl [rstrCI "constructor", sStar, rch '(', noParenStar, sPlus, wPlus, rstrCI "Service"]
def pCtorHttp : Rgx :=
  rcatl [rstrCI "constructor", sStar, rch '(', noParenStar, sPlus, rstrCI "Http"]
def pCtorApi : Rgx :=
  rcatl [rstrCI "constructor", sStar, rch '(', noParenStar, sPlus, rstrCI "Api"]
def pNgOnInit : Rgx := rcatl [rstr "ngOnInit", sStar, rch '(']
def pNgOnChanges : Rgx := rcatl [rstr "ngOnChanges", sStar, rch '(']
def pNgAfterViewInit : Rgx := rcatl [rstr "ngAfterViewInit", sStar, rch '(']
def pNgOnDestroy : Rgx := rcatl [rstr "ngOnDestroy", sStar, rch '(']
def pSubscribe : Rgx := rcatl [rch '.', rstr "subscribe", sStar, rch '(']
def pObservable : Rgx := rcatl [rstr "Observable", sStar, rch '<']
def pSubject : Rgx := rcatl [rstr "Subject", sStar, rch '<']
def pBehaviorSubject : Rgx := rcatl [rstr "BehaviorSubject", sStar, rch '<']
def pFormBuilder : Rgx := rstr "FormBuilder"
def pFormGroup : Rgx := rstr "FormGroup"
def pFormControl : Rgx := rstr "FormControl"
def pValidators : Rgx := rcatl [rstr "Validators", rch '.']
def pComplexMethod : Rgx :=
  rcatl [wPlus, sStar, rch '(', noParenStar, rch ')', sStar, rch ':', sStar, wPlus,
         sStar, rch '{', repAtLeast 50]
def pGetter : Rgx :=
  rcatl [rstr "get", sPlus, wPlus, sStar, rch '(', sStar, rch ')', sStar, rch '{',
         repAtLeast 20]
def pOnHandler : Rgx := rcatl [rstr "on", wPlus, sStar, rch '(']
def pHandleHandler : Rgx := rcatl [rstr "handle", wPlus, sStar, rch '(']
def pInputDecor : Rgx :=
  rcatl [rch '@', rstr "Input", rch '(', rch ')', sPlus, wPlus, sStar, rch ':', sStar,
         mkAlt (rstr "any") (mkAlt (rstr "object") (rcatl [wPlus, rch '[', rch ']']))]

def complexityIndicators : List Rgx :=
  [pCtorService, pCtorHttp, pCtorApi,
   pNgOnInit, pNgOnChanges, pNgAfterViewInit, pNgOnDestroy,
   pSubscribe, pObservable, pSubject, pBehaviorSubject,
   pFormBuilder, pFormGroup, pFormControl, pValidators,
   pComplexMethod, pGetter, pOnHandler, pHandleHandler, pInputDecor]

/-! The template probes of `templateComplexityIndicators`
(source lines 546-562), in source order.  Note that the last probe is
the interpolation regex itself. -/

def tNgFor : Rgx := rcatl [rch '*', rstr "ngFor"]
def tNgIf : Rgx := rcatl [rch '*', rstr "ngIf"]
def tNgSwitch : Rgx := rcatl [rch '[', rstr "ngSwitch", rch ']']
def tEventBind : Rgx := rcatl [rch '(', wPlus, rch ')', sStar, rch '=']
def tPropBind : Rgx := rcatl [rch '[', wPlus, rch ']', sStar, rch '=']
def tInterp : Rgx := rcatl [rch '{', rch '{', .star (.cls .dotCh), rch '}', rch '}']

def templateComplexityIndicators : List Rgx :=
  [tNgFor, tNgIf, tNgSwitch, tEventBind, tPropBind, tInterp]

/-! ## Template text scanners

These embed the `regex.exec` loops of the analyzer.  JavaScript global
matching tries a match at each index: on failure the start index
advances by one character, on success it continues right after the
match.  `scanWithF` implements exactly that given a single-position
matcher `f`; the fuel argument (instantiated with the input length by
each wrapper, and strictly larger than the number of scanning steps,
each of which consumes at least one character) only serves structural
termination. -/

def scanWithF (f : List Char → Option (String × List Char)) :
    Nat → List Char → List String
  | 0, _ => []
  | _ + 1, [] => []
  | fuel + 1, c :: rest =>
    match f (c :: rest) with
    | some (x, rem) => x :: scanWithF f fuel rem
    | none => scanWithF f fuel rest

/-- Strip a literal prefix. -/
def stripLit : List Char → List Char → Option (List Char)
  | [], s => some s
  | c :: cs, d :: ds => if c == d then stripLit cs ds else none
  | _ :: _, [] => none

/-- Lazy body of `/\{\{.*?\}\}/` after the opening braces: offset just
past the first `\x7d\x7d` not preceded by a newline (`.` does not match
a newline, and the lazy star takes the earliest closing braces). -/
def findClose : List Char → Option Nat
  | '}' :: '}' :: _ => some 2
  | '\n' :: _ => none
  | _ :: rest => (findClose rest).map (· + 1)
  | [] => none

/-- One match attempt of `/\{\{.*?\}\}/` at the current position. -/
def interpAt : List Char → Option (String × List Char)
  | '{' :: '{' :: rest =>
    match findClose rest with
    | some n => some ("", rest.drop n)
    | none => none
  | _ => none

/-- `(templateCode.match(/\{\{.*?\}\}/g) || []).length` (source line 570). -/
def countInterp (s : List Char) : Nat :=
  (scanWithF interpAt s.length s).length

/-- One match attempt of `/\{\{\s*(\w+)\s*\}\}/` (source line 679),
returning the captured identifier.  Every quantifier is forced-munch
(`\w` and `\s` are disjoint and neither contains `\x7d`), so greedy
scanning without backtracking is exact. -/
def interpIdentAt : List Char → Option (String × List Char)
  | '{' :: '{' :: rest =>
    let r1 := rest.dropWhile isJsSpace
    let nm := r1.takeWhile isWordChar
    let r2 := (r1.dropWhile isWordChar).dropWhile isJsSpace
    if nm.isEmpty then none
    else
      match r2 with
      | '}' :: '}' :: rem => some (nm.asString, rem)
      | _ => none
  | _ => none

/-- All identifiers captured by the global interpolation-identifier
scan of `findSubscriptionUsagesInTemplate`. -/
def scanInterpIdents (s : List Char) : List String :=
  scanWithF interpIdentAt s.length s

/-- One match attempt of `/\{\{\s*(\w+)\s*\(\s*\)\s*\}\}/` (source line
604), returning the captured function name; forced-munch as above. -/
def funcCallAt : List Char → Option (String × List Char)
  | '{' :: '{' :: rest =>
    let r1 := rest.dropWhile isJsSpace
    let nm := r1.takeWhile isWordChar
    let r2 := (r1.dropWhile isWordChar).dropWhile isJsSpace
    if nm.isEmpty then none
    else
      match r2 with
      | '(' :: r3 =>
        match r3.dropWhile isJsSpace with
        | ')' :: r4 =>
          match r4.dropWhile isJsSpace with
          | '}' :: '}' :: rem => some (nm.asString, rem)
          | _ => none
        | _ => none
      | _ => none
  | _ => none

/-- `findFunctionCallsInTemplate`, reduced to the captured names. -/
def scanFuncCalls (s : List Char) : List String :=
  scanWithF funcCallAt s.length s

/-- One match attempt of `/\*ngFor\s*=\s*"([^"]*)"/` (source line 655),
returning the captured directive expression; `[^"]*` is greedy up to
the next quote and forced. -/
def ngForAt (s : List Char) : Option (String × List Char) :=
  match stripLit "*ngFor".toList s with
  | none => none
  | some r1 =>
    match r1.dropWhile isJsSpace with
    | '=' :: r2 =>
      match r2.dropWhile isJsSpace with
      | '"' :: r3 =>
        let expr := r3.takeWhile (fun c => c != '"')
        match r3.dropWhile (fun c => c != '"') with
        | '"' :: rem => some (expr.asString, rem)
        | _ => none
      | _ => none
    | _ => none

/-- `findNgForLoops`, reduced to the captured `*ngFor` expressions. -/
def scanNgFor (s : List Char) : List String :=
  scanWithF ngForAt s.length s

/-- Longest accepted prefix length of `r` on `s` (derivative walk). -/
def longestAccept : Rgx → List Char → Option Nat
  | r, [] => if nub r then some 0 else none
  | r, c :: rest =>
    match longestAccept (rderiv c r) rest with
    | some j => some (j + 1)
    | none => if nub r then some 0 else none

/-- The capture group `([^"]*\.\w+\s*===?\s*[^"]*)` of the
object-comparison regex (source line 627). -/
def objCompBody : Rgx :=
  rcatl [.star (.cls .notQuote), rch '.', wPlus, sStar, rstr "==",
         mkAlt (rch '=') .eps, sStar, .star (.cls .notQuote)]

/-- One match attempt of `/\*ngIf\s*=\s*"([^"]*\.\w+\s*===?\s*[^"]*)/`.
Every character class of the capture excludes `"`, and its trailing
`[^"]*` is greedy, so the backtracking match extent is exactly the
longest accepted prefix, which `longestAccept` computes. -/
def objCompAt (s : List Char) : Option (String × List Char) :=
  match stripLit "*ngIf".toList s with
  | none => none
  | some r1 =>
    match r1.dropWhile isJsSpace with
    | '=' :: r2 =>
      match r2.dropWhile isJsSpace with
      | '"' :: body =>
        match longestAccept objCompBody body with
        | some j => some ((body.take j).asString, body.drop j)
        | none => none
      | _ => none
    | _ => none

/-- `findObjectComparisonsInTemplate`, reduced to the captured
comparison expressions. -/
def scanObjComp (s : List Char) : List String :=
  scanWithF objCompAt s.length s

/-! ## Data model (the exported interfaces of the analyzer) -/

inductive Severity where
  | high | medium | low
deriving DecidableEq, Repr

inductive CdType where
  | missingOnpush | functionInTemplate | objectComparison | unnecessaryComputation
deriving DecidableEq, Repr

inductive TplType where
  | missingTrackby | asyncPipeOpportunity | expensivePipe | largeNgfor
deriving DecidableEq, Repr

inductive SubType where
  | manualSubscription | memoryLeak | multipleSubscriptions
deriving DecidableEq, Repr

inductive BundleType where
  | lazyLoading | treeShaking | codeSplitting
deriving DecidableEq, Repr

inductive RecCategory where
  | performance | memory | bundleSize
deriving DecidableEq, Repr

/-- `ChangeDetectionProblem` (location omitted). -/
structure CdIssue where
  type : CdType
  severity : Severity
  description : String
  estimatedImpact : String
  fix : String
deriving DecidableEq, Repr

/-- `TemplatePerformanceIssue` (location omitted). -/
structure TplIssue where
  type : TplType
  severity : Severity
  description : String
  elementCount : Option Nat
  fix : String
deriving DecidableEq, Repr

/-- `SubscriptionIssue` (location omitted). -/
structure SubIssue where
  type : SubType
  severity : Severity
  description : String
  fix : String
deriving DecidableEq, Repr

/-- `BundleOptimization`. -/
structure BundleOpt where
  type : BundleType
  description : String
  estimatedSizeReduction : String
  implementation : String
deriving DecidableEq, Repr

/-- `OptimizationRecommendation`. -/
structure Recommendation where
  priority : Severity
  category : RecCategory
  title : String
  description : String
  implementation : String
  estimatedImpact : String
deriving DecidableEq, Repr

/-- `ComponentMetadata`.  Optional fields that `parseComponentMetadata`
never sets stay at their defaults. -/
structure ComponentMetadata where
  selector : String
  templateUrl : Option String
  styleUrls : Option (List String)
  changeDetection : Option String
  inputs : List String
  outputs : List String
  providers : List String
deriving DecidableEq, Repr

def defaultMetadata : ComponentMetadata :=
  { selector := "", templateUrl := none, styleUrls := none,
    changeDetection := none, inputs := [], outputs := [], providers := [] }

/-- `ComponentInfo` (file paths omitted; `templateCode` uses `""` for
the absent template exactly as `parseComponentFile` does). -/
structure ComponentInfo where
  name : String
  sourceCode : String
  templateCode : String
  metadata : ComponentMetadata
deriving DecidableEq, Repr

/-- `ComponentAnalysis` (file path omitted). -/
structure ComponentAnalysis where
  componentName : String
  changeDetectionIssues : List CdIssue
  templateIssues : List TplIssue
  subscriptionIssues : List SubIssue
  bundleOptimizations : List BundleOpt
  performanceScore : Int
  recommendations : List Recommendation
deriving DecidableEq, Repr

/-! ## The TypeScript syntax-tree fragment the analyzer inspects

`TsNode` stands for the tree `ts.createSourceFile` produces for the
source text.  Only the node shapes the three AST walks dispatch on are
distinguished; every other node is `node` with its children, so that
`ts.forEachChild` recursion is preserved.  Decorator call arguments are
modelled only in the shape the metadata extractor reads (an optional
object-literal property list). -/

inductive PropInit where
  | strLit (s : String)          -- a string-literal initializer
  | propAcc (finalName : String) -- a property-access initializer; only `.name.text` is read
  | otherInit
deriving DecidableEq, Repr

inductive ObjProp where
  | assign (nm : String) (init : PropInit) -- a PropertyAssignment with an identifier name
  | otherProp
deriving DecidableEq, Repr

inductive Decorator where
  | callDec (callee : String) (objArg : Option (List ObjProp))
      -- a decorator that is a call of an identifier; `objArg` is the
      -- first argument when it is an object literal
  | otherDec
deriving DecidableEq, Repr

inductive TsNode where
  | classDecl (nm : Option String) (decorators : List Decorator) (children : List TsNode)
  | callExpr (callee : TsNode) (args : List TsNode)
  | propAccess (target : TsNode) (member : String)
  | ident (nm : String)
  | importDecl (moduleName : Option String) -- `some` iff the specifier is a string literal
  | node (children : List TsNode)

/-- The `@Component` decorator lookup of `parseComponentFile`
(`decorators?.find(...)` then the object-literal check on its first
argument). -/
def componentArgs (decs : List Decorator) : Option (List ObjProp) :=
  match decs.find? (fun d =>
      match d with
      | .callDec callee _ => callee == "Component"
      | .otherDec => false) with
  | some (.callDec _ objArg) => objArg
  | _ => none

mutual

/-- The named class declarations met by the `visit` walk of
`parseComponentFile`, in visit order, each with the object-literal
argument of its `@Component` decorator when present. -/
def classList : TsNode → List (String × Option (List ObjProp))
  | .classDecl nm decs kids =>
    (match nm with
     | some s => [(s, componentArgs decs)]
     | none => []) ++ classListMany kids
  | .callExpr f args => classList f ++ classListMany args
  | .propAccess t _ => classList t
  | .ident _ => []
  | .importDecl _ => []
  | .node kids => classListMany kids

def classListMany : List TsNode → List (String × Option (List ObjProp))
  | [] => []
  | t :: ts => classList t ++ classListMany ts

end

/-- `parseComponentMetadata` (source lines 214-245): a left fold over
the object-literal properties with last-assignment-wins semantics. -/
def applyMetaProp (m : ComponentMetadata) (p : ObjProp) : ComponentMetadata :=
  match p with
  | .assign nm init =>
    if nm == "selector" then
      match init with
      | .strLit s => { m with selector := s }
      | _ => m
    else if nm == "templateUrl" then
      match init with
      | .strLit s => { m with templateUrl := some s }
      | _ => m
    else if nm == "changeDetection" then
      match init with
      | .propAcc fin => { m with changeDetection := some fin }
      | _ => m
    else m
  | .otherProp => m

def parseComponentMetadata (props : List ObjProp) : ComponentMetadata :=
  props.foldl applyMetaProp defaultMetadata

/-- The `componentName = ...` / `metadata = ...` assignments performed
for one visited class. -/
def applyClass (acc : String × ComponentMetadata)
    (entry : String × Option (List ObjProp)) : String × ComponentMetadata :=
  (entry.1,
   match entry.2 with
   | some props => parseComponentMetadata props
   | none => acc.2)

mutual

/-- Receiver text of a subscribe call (`node.expression.expression.getText()`),
approximated structurally for the node shapes the model distinguishes. -/
def exprText : TsNode → String
  | .ident s => s
  | .propAccess t m => exprText t ++ "." ++ m
  | _ => ""

end

mutual

/-- `findManualSubscriptions` (source lines 698-733): the receivers of
all call expressions `recv.subscribe(...)`, in visit order. -/
def subsIn : TsNode → List String
  | .callExpr f args =>
    (match f with
     | .propAccess tgt m => if m == "subscribe" then [exprText tgt] else []
     | _ => []) ++ subsIn f ++ subsInMany args
  | .classDecl _ _ kids => subsInMany kids
  | .propAccess t _ => subsIn t
  | .ident _ => []
  | .importDecl _ => []
  | .node kids => subsInMany kids

def subsInMany : List TsNode → List String
  | [] => []
  | t :: ts => subsIn t ++ subsInMany ts

end

mutual

/-- `findImports` (source lines 735-764): all string-literal module
specifiers of import declarations, in visit order. -/
def importsIn : TsNode → List String
  | .importDecl (some m) => [m]
  | .importDecl none => []
  | .classDecl _ _ kids => importsInMany kids
  | .callExpr f args => importsIn f ++ importsInMany args
  | .propAccess t _ => importsIn t
  | .ident _ => []
  | .node kids => importsInMany kids

def importsInMany : List TsNode → List String
  | [] => []
  | t :: ts => importsIn t ++ importsInMany ts

end

/-- One source file handed to the analyzer: the raw text plus the tree
the TypeScript parser yields for it. -/
structure SourceFileModel where
  ast : TsNode
  text : String

/-- `parseComponentFile` (source lines 149-212).  `lookup` stands for
reading the referenced template file from disk: `none` is a failed
read, which the analyzer absorbs by leaving the template empty. -/
def parseComponentFile (lookup : String → Option String)
    (f : SourceFileModel) : ComponentInfo :=
  let nameMeta := (classList f.ast).foldl applyClass ("", defaultMetadata)
  let tplCode :=
    match nameMeta.2.templateUrl with
    | some url =>
      if url == "" then ""   -- the empty string is falsy in JavaScript
      else
        match lookup url with
        | some txt => txt
        | none => ""
    | none => ""
  { name := nameMeta.1, sourceCode := f.text, templateCode := tplCode,
    metadata := nameMeta.2 }

/-! ## The complexity classifier `shouldRecommendOnPush` (source lines 502-585) -/

/-- `complexityIndicators.reduce((count, pattern) => count + (pattern.test(sourceCode) ? 1 : 0), 0)`. -/
def sourceComplexityCount (src : String) : Nat :=
  complexityIndicators.foldl (fun cnt p => cnt + (if rtest p src then 1 else 0)) 0

/-- `templateComplexityIndicators.some(pattern => pattern.test(templateCode))`. -/
def hasTemplateComplexity (tpl : String) : Bool :=
  templateComplexityIndicators.any (fun p => rtest p tpl)

def shouldRecommendOnPush (src tpl : String) : Bool :=
  let sourceCount := sourceComplexityCount src
  let templateMatchCount := countInterp tpl.toList
  decide (sourceCount ≥ 2)
    || (hasTemplateComplexity tpl && decide (sourceCount ≥ 1))
    || decide (templateMatchCount > 3)

/-! ## Rule evaluators -/

/-- JavaScript truthiness test `!metadata.changeDetection` (absent or
the empty string). -/
def jsFalsyStr : Option String → Bool
  | none => true
  | some s => s == ""

/-- The `missing-onpush` finding pushed by `analyzeChangeDetection`. -/
def onPushProblem : CdIssue :=
  { type := .missingOnpush, severity := .high,
    description := "Component uses default change detection strategy",
    estimatedImpact := "60% reduction in change detection cycles",
    fix := "Add ChangeDetectionStrategy.OnPush to component decorator" }

def mkFuncCallIssue (nm : String) : CdIssue :=
  { type := .functionInTemplate, severity := .high,
    description := "Function call '" ++ nm ++ "' in template causes unnecessary re-execution",
    estimatedImpact := "Significant performance degradation on each change detection",
    fix := "Move function call to component property or use pipe" }

def mkObjCompIssue (expr : String) : CdIssue :=
  { type := .objectComparison, severity := .medium,
    description := "Object comparison in template: " ++ expr,
    estimatedImpact := "Unnecessary re-renders when object references change",
    fix := "Use trackBy function or compare primitive values" }

/-- `analyzeChangeDetection` (source lines 247-304). -/
def analyzeChangeDetection (info : ComponentInfo) : List CdIssue :=
  (if jsFalsyStr info.metadata.changeDetection
      || info.metadata.changeDetection != some "OnPush" then
     if shouldRecommendOnPush info.sourceCode info.templateCode then [onPushProblem]
     else []
   else [])
  ++ (if info.templateCode != "" then
        (scanFuncCalls info.templateCode.toList).map mkFuncCallIssue
      else [])
  ++ (if info.templateCode != "" then
        (scanObjComp info.templateCode.toList).map mkObjCompIssue
      else [])

/-- `estimateLoopSize` (source lines 766-776). -/
def estimateLoopSize (ngForExpression : String) : Option Nat :=
  if strIncludes ngForExpression "users" || strIncludes ngForExpression "items" then
    some 50
  else none

/-- `isSubscriptionVariable` (source lines 778-786). -/
def isSubscriptionVariable (variableName : String) : Bool :=
  strIncludes variableName "$"
    || strIncludes variableName "subscription"
    || strIncludes variableName "observable"
    || strIncludes variableName "stream"

/-- `findSubscriptionUsagesInTemplate` (source lines 675-696), reduced
to the matching identifiers. -/
def findSubscriptionUsagesInTemplate (template : String) : List String :=
  (scanInterpIdents template.toList).filter isSubscriptionVariable

def mkMissingTrackby (size : Option Nat) : TplIssue :=
  { type := .missingTrackby, severity := .high,
    description := "*ngFor loop missing trackBy function",
    elementCount := size,
    fix := "Add trackBy function to prevent unnecessary DOM manipulations" }

def asyncPipeIssue : TplIssue :=
  { type := .asyncPipeOpportunity, severity := .medium,
    description := "Manual subscription can be replaced with async pipe",
    elementCount := none,
    fix := "Replace manual subscription with async pipe for automatic unsubscription" }

def mkLargeNgfor (size : Nat) : TplIssue :=
  { type := .largeNgfor, severity := .high,
    description := "Large ngFor loop with ~" ++ toString size ++ " items",
    elementCount := some size,
    fix := "Consider virtual scrolling or pagination for large lists" }

/-- The `loop.estimatedSize && loop.estimatedSize > 100` guard (`0` can
never occur as an estimate, so truthiness is just presence). -/
def largeGuard (e : String) : Bool :=
  match estimateLoopSize e with
  | some n => decide (n > 100)
  | none => false

/-- `analyzeTemplate` (source lines 306-355): missing-trackBy findings
for every `*ngFor` occurrence without the `trackBy` token, then
async-pipe findings, then large-list findings, in source order. -/
def analyzeTemplate (info : ComponentInfo) : List TplIssue :=
  if info.templateCode == "" then []
  else
    let loops := scanNgFor info.templateCode.toList
    (loops.filter (fun e => !strIncludes e "trackBy")).map
        (fun e => mkMissingTrackby (estimateLoopSize e))
      ++ (findSubscriptionUsagesInTemplate info.templateCode).map (fun _ => asyncPipeIssue)
      ++ (loops.filter largeGuard).map
          (fun e => mkLargeNgfor ((estimateLoopSize e).getD 0))

def mkManualSub (variableName : String) : SubIssue :=
  { type := .manualSubscription, severity := .medium,
    description := "Manual subscription without proper cleanup: " ++ variableName,
    fix := "Use async pipe, takeUntil pattern, or implement OnDestroy" }

def mkMultipleSubs (n : Nat) : SubIssue :=
  { type := .multipleSubscriptions, severity := .low,
    description := "Component has " ++ toString n ++ " manual subscriptions",
    fix := "Consider combining subscriptions using combineLatest or merge operators" }

/-- `analyzeSubscriptions` (source lines 357-384). -/
def analyzeSubscriptions (ast : TsNode) : List SubIssue :=
  let subs := subsIn ast
  subs.map mkManualSub
    ++ (if subs.length > 3 then [mkMultipleSubs subs.length] else [])

/-- `isLargeLibrary` (source lines 788-791). -/
def isLargeLibrary (moduleName : String) : Bool :=
  ["lodash", "moment", "rxjs", "@angular/material"].any
    (fun lib => strIncludes moduleName lib)

def mkLazyLoading (moduleName : String) : BundleOpt :=
  { type := .lazyLoading,
    description := "Large library '" ++ moduleName ++ "' could be lazy loaded",
    estimatedSizeReduction := "20-40KB",
    implementation := "Consider lazy loading this module or using dynamic imports" }

/-- `analyzeBundleOptimizations` (source lines 386-406). -/
def analyzeBundleOptimizations (ast : TsNode) : List BundleOpt :=
  ((importsIn ast).filter isLargeLibrary).map mkLazyLoading

/-! ## Scorer and recommendation generator -/

def sevWeight : Severity → Int
  | .high => 15
  | .medium => 10
  | .low => 5

/-- The `deductPoints` closure of `calculatePerformanceScore`. -/
def deductPoints (score : Int) (sevs : List Severity) : Int :=
  sevs.foldl (fun sc v => sc - sevWeight v) score

/-- `calculatePerformanceScore` (source lines 408-437): sequential
deduction over the three severity-bearing families, then
`Math.max(0, score)`. -/
def calculatePerformanceScore (cd : List CdIssue) (tpl : List TplIssue)
    (sub : List SubIssue) : Int :=
  max 0 (deductPoints
          (deductPoints
            (deductPoints 100 (cd.map (·.severity)))
            (tpl.map (·.severity)))
          (sub.map (·.severity)))

def onPushRec : Recommendation :=
  { priority := .high, category := .performance,
    title := "Implement OnPush Change Detection",
    description := "Switch to OnPush strategy to dramatically reduce change detection cycles",
    implementation := "Add ChangeDetectionStrategy.OnPush to @Component decorator",
    estimatedImpact := "60% reduction in change detection overhead" }

def trackByRec : Recommendation :=
  { priority := .high, category := .performance,
    title := "Add TrackBy Functions",
    description := "Implement trackBy functions for all ngFor loops to prevent unnecessary DOM updates",
    implementation := "Create trackBy functions that return unique identifiers for list items",
    estimatedImpact := "Eliminate unnecessary DOM re-renders for list updates" }

def subscriptionRec : Recommendation :=
  { priority := .medium, category := .memory,
    title := "Optimize Subscription Management",
    description := "Replace manual subscriptions with async pipes or proper cleanup",
    implementation := "Use async pipe in templates or implement takeUntil pattern",
    estimatedImpact := "Prevent memory leaks and improve component cleanup" }

/-- `generateRecommendations` (source lines 439-496).  The
`bundleOptimizations` argument is accepted and ignored, exactly as in
the source. -/
def generateRecommendations (cd : List CdIssue) (tpl : List TplIssue)
    (sub : List SubIssue) (_bundle : List BundleOpt) : List Recommendation :=
  (if cd.any (fun i => i.type == .missingOnpush) then [onPushRec] else [])
    ++ (if tpl.any (fun i => i.type == .missingTrackby) then [trackByRec] else [])
    ++ (if sub.length > 0 then [subscriptionRec] else [])

/-- `analyzeComponent` (source lines 110-147). -/
def analyzeComponent (lookup : String → Option String)
    (f : SourceFileModel) : ComponentAnalysis :=
  let info := parseComponentFile lookup f
  let cd := analyzeChangeDetection info
  let tpl := analyzeTemplate info
  let sub := analyzeSubscriptions f.ast
  let bundle := analyzeBundleOptimizations f.ast
  { componentName := info.name,
    changeDetectionIssues := cd,
    templateIssues := tpl,
    subscriptionIssues := sub,
    bundleOptimizations := bundle,
    performanceScore := calculatePerformanceScore cd tpl sub,
    recommendations := generateRecommendations cd tpl sub bundle }

/-! ## The aggregator `generateProjectSummary` (source lines 864-918)

The `issuesByType` object literal has exactly six keys.  The
`issuesByType[issue.type]++` increments may therefore hit a missing
key, where JavaScript evaluates `undefined + 1 = NaN` and stores the
result under the (newly appended) key; a further increment keeps NaN.
Counts are `Option Nat` with `none` for NaN, and the breakdown is the
object's ordered property list. -/

abbrev Ent := String × Option Nat

def jsInc : Option Nat → Option Nat
  | some n => some (n + 1)
  | none => none

/-- `issuesByType[k]++` on the ordered property list. -/
def bump : List Ent → String → List Ent
  | [], k => [(k, none)]
  | (k2, v) :: rest, k =>
    if k2 == k then (k2, jsInc v) :: rest else (k2, v) :: bump rest k

def sixKindKeys : List String :=
  ["missing-onpush", "function-in-template", "missing-trackby",
   "manual-subscription", "async-pipe-opportunity", "large-ngfor"]

/-- The initial `issuesByType` object literal (source lines 886-893). -/
def initBreakdown : List Ent :=
  [("missing-onpush", some 0), ("function-in-template", some 0),
   ("missing-trackby", some 0), ("manual-subscription", some 0),
   ("async-pipe-opportunity", some 0), ("large-ngfor", some 0)]

def cdTypeKey : CdType → String
  | .missingOnpush => "missing-onpush"
  | .functionInTemplate => "function-in-template"
  | .objectComparison => "object-comparison"
  | .unnecessaryComputation => "unnecessary-computation"

def tplTypeKey : TplType → String
  | .missingTrackby => "missing-trackby"
  | .asyncPipeOpportunity => "async-pipe-opportunity"
  | .expensivePipe => "expensive-pipe"
  | .largeNgfor => "large-ngfor"

def subTypeKey : SubType → String
  | .manualSubscription => "manual-subscription"
  | .memoryLeak => "memory-leak"
  | .multipleSubscriptions => "multiple-subscriptions"

/-- The `issue.type` keys one analysis feeds to the histogram, in the
increment order of the source (change-detection, template,
subscription). -/
def analysisKinds (a : ComponentAnalysis) : List String :=
  a.changeDetectionIssues.map (fun i => cdTypeKey i.type)
    ++ a.templateIssues.map (fun i => tplTypeKey i.type)
    ++ a.subscriptionIssues.map (fun i => subTypeKey i.type)

def buildBreakdown (analyses : List ComponentAnalysis) : List Ent :=
  analyses.foldl (fun b a => (analysisKinds a).foldl bump b) initBreakdown

/-- The sort comparator `([, a], [, b]) => b - a`: `x` strictly
precedes `y` when its count is a larger number; a NaN on either side is
a tie (`SortCompare` maps NaN to `+0`). -/
def entGt (x y : Ent) : Bool :=
  match x.2, y.2 with
  | some m, some n => decide (m > n)
  | _, _ => false

/-- Stable insertion: `x` sinks below exactly the entries that strictly
precede it. -/
def insertEnt (x : Ent) : List Ent → List Ent
  | [] => [x]
  | y :: ys => if entGt y x then y :: insertEnt x ys else x :: y :: ys

/-- `Array.prototype.sort` with the count comparator, modelled as the
stable insertion sort (ECMAScript requires the sort to be stable). -/
def sortEnts : List Ent → List Ent
  | [] => []
  | x :: xs => insertEnt x (sortEnts xs)

/-- `ProjectSummary`. -/
structure ProjectSummary where
  totalComponents : Nat
  totalIssues : Nat
  averagePerformanceScore : ℚ
  analysisErrors : Nat
  issueBreakdown : List Ent
  topIssues : List Ent
deriving DecidableEq, Repr

/-- `Math.round(x)` for the non-negative rationals that occur here. -/
def jsRound (q : ℚ) : ℤ := ⌊q + 1 / 2⌋

/-- `generateProjectSummary` (source lines 864-918). -/
def generateProjectSummary (analyses : List ComponentAnalysis)
    (successCount errorCount : Nat) : ProjectSummary :=
  let totalIssues := analyses.foldl
    (fun sum a => sum + a.changeDetectionIssues.length + a.templateIssues.length
      + a.subscriptionIssues.length) 0
  let averageScore : ℚ :=
    if analyses.length > 0 then
      (analyses.foldl (fun sum a => sum + a.performanceScore) 0 : ℤ) / analyses.length
    else 0
  let breakdown := buildBreakdown analyses
  { totalComponents := successCount,
    totalIssues := totalIssues,
    averagePerformanceScore := (jsRound (averageScore * 100) : ℚ) / 100,
    analysisErrors := errorCount,
    issueBreakdown := breakdown,
    topIssues := (sortEnts breakdown).take 3 }

/-! ## Helper definitions and lemmas for the claims -/

/-- The severities of all findings of the three severity-bearing
families, in deduction order. -/
def sevList (cd : List CdIssue) (tpl : List TplIssue) (sub : List SubIssue) :
    List Severity :=
  cd.map (·.severity) ++ tpl.map (·.severity) ++ sub.map (·.severity)

theorem deductPoints_eq (init : Int) (l : List Severity) :
    deductPoints init l = init - (l.map sevWeight).sum := by
  induction l generalizing init with
  | nil => simp [deductPoints]
  | cons s t ih =>
    have h1 : deductPoints init (s :: t) = deductPoints (init - sevWeight s) t := by
      simp [deductPoints]
    rw [h1, ih]
    simp
    ring

theorem weightSum_eq (l : List Severity) :
    (l.map sevWeight).sum
      = 15 * (l.countP (· == Severity.high) : Int)
        + 10 * (l.countP (· == Severity.medium) : Int)
        + 5 * (l.countP (· == Severity.low) : Int) := by
  induction l with
  | nil => simp
  | cons s t ih =>
    cases s <;>
      simp [sevWeight, List.countP_cons, ih] <;> ring

theorem weightSum_nonneg (l : List Severity) : 0 ≤ (l.map sevWeight).sum := by
  apply List.sum_nonneg
  intro x hx
  rcases List.mem_map.mp hx with ⟨s, _, rfl⟩
  cases s <;> simp [sevWeight]

theorem calcScore_closed_form (cd : List CdIssue) (tpl : List TplIssue)
    (sub : List SubIssue) :
    calculatePerformanceScore cd tpl sub
      = max 0 (100 - ((sevList cd tpl sub).map sevWeight).sum) := by
  simp [calculatePerformanceScore, deductPoints_eq, sevList]
  ring_nf

/-! ## Claim C1 -/

/-- C1: for every finding set of the three severity-bearing families
(bundle findings are excluded by the signature of
`calculatePerformanceScore`, mirroring the call site), the performance
score equals 100 minus 15 per high, 10 per medium and 5 per low
finding, clamped below at 0; it always lies in [0,100]; and it is
invariant under permuting the deducted findings. -/
theorem claim1_performance_score (cd cd2 : List CdIssue) (tpl tpl2 : List TplIssue)
    (sub sub2 : List SubIssue) :
    calculatePerformanceScore cd tpl sub
        = max 0 (100 - (15 * ((sevList cd tpl sub).countP (· == Severity.high) : Int)
            + 10 * ((sevList cd tpl sub).countP (· == Severity.medium) : Int)
            + 5 * ((sevList cd tpl sub).countP (· == Severity.low) : Int)))
      ∧ 0 ≤ calculatePerformanceScore cd tpl sub
      ∧ calculatePerformanceScore cd tpl sub ≤ 100
      ∧ (List.Perm (sevList cd tpl sub) (sevList cd2 tpl2 sub2) →
          calculatePerformanceScore cd tpl sub
            = calculatePerformanceScore cd2 tpl2 sub2) := by
  refine ⟨?_, ?_, ?_, ?_⟩
  · rw [calcScore_closed_form, weightSum_eq]
  · rw [calcScore_closed_form]
    exact le_max_left 0 _
  · rw [calcScore_closed_form]
    have h := weightSum_nonneg (sevList cd tpl sub)
    apply max_le (by norm_num) (by omega)
  · intro hp
    rw [calcScore_closed_form, calcScore_closed_form]
    have hs : ((sevList cd tpl sub).map sevWeight).sum
        = ((sevList cd2 tpl2 sub2).map sevWeight).sum :=
      (hp.map sevWeight).sum_eq
    rw [hs]

theorem claim1_performance_score_witness :
    List.Perm (sevList [onPushProblem] [asyncPipeIssue] [])
        (sevList [mkObjCompIssue "e"] [mkMissingTrackby none] [])
      ∧ calculatePerformanceScore [onPushProblem] [asyncPipeIssue] []
          = calculatePerformanceScore [mkObjCompIssue "e"] [mkMissingTrackby none] [] :=
  ⟨by decide,
   (claim1_performance_score [onPushProblem] [mkObjCompIssue "e"]
      [asyncPipeIssue] [mkMissingTrackby none] [] []).2.2.2 (by decide)⟩

/-! ## Claim C5 -/

/-- C5 counterexample: a finding set with one `missing-onpush` and one
`missing-trackby` finding makes `generateRecommendations` emit two
recommendations of the `performance` category, refuting "at most one
recommendation per category". -/
theorem claim5_counterexample :
    (generateRecommendations [onPushProblem] [mkMissingTrackby none] [] []).countP
        (fun r => r.category == RecCategory.performance) = 2 := by
  decide

/-- C5 (amended): the generated recommendations are capped at one per
trigger, not one per category: the `performance` category holds at most
two (one for missing-onpush, one for missing-trackBy), `memory` at most
one, `bundle-size` none, and at most three in total; and no
recommendation is generated whose triggering finding kind produced zero
findings. -/
theorem claim5_amended (cd : List CdIssue) (tpl : List TplIssue)
    (sub : List SubIssue) (bundle : List BundleOpt) :
    (generateRecommendations cd tpl sub bundle).countP
        (fun r => r.category == RecCategory.performance) ≤ 2
      ∧ (generateRecommendations cd tpl sub bundle).countP
          (fun r => r.category == RecCategory.memory) ≤ 1
      ∧ (generateRecommendations cd tpl sub bundle).countP
          (fun r => r.category == RecCategory.bundleSize) = 0
      ∧ (generateRecommendations cd tpl sub bundle).length ≤ 3
      ∧ (onPushRec ∈ generateRecommendations cd tpl sub bundle →
          ∃ i ∈ cd, i.type = CdType.missingOnpush)
      ∧ (trackByRec ∈ generateRecommendations cd tpl sub bundle →
          ∃ i ∈ tpl, i.type = TplType.missingTrackby)
      ∧ (subscriptionRec ∈ generateRecommendations cd tpl sub bundle →
          sub ≠ []) := by
  unfold generateRecommendations
  split_ifs with h1 h2 h3 <;>
    simp_all [List.any_eq_true, List.length_pos] <;>
    (repeat' constructor) <;>
    first
      | decide
      | (intro h; exact absurd h (by decide))

theorem claim5_amended_witness :
    (onPushRec ∈ generateRecommendations [onPushProblem] [] [] [])
      ∧ (∃ i ∈ [onPushProblem], i.type = CdType.missingOnpush) :=
  ⟨by decide,
   (claim5_amended [onPushProblem] [] [] []).2.2.2.2.1 (by decide)⟩

/-! ## Claim C3 -/

theorem countP_map_eq_zero {α β : Type} (f : α → β) (p : β → Bool) (l : List α)
    (h : ∀ x, p (f x) = false) : (l.map f).countP p = 0 := by
  induction l with
  | nil => rfl
  | cons a t ih => simp [List.countP_cons, ih, h]

theorem fold_preserves_cd (m : ComponentMetadata) (l : List ObjProp)
    (h : ∀ p ∈ l, ∀ fin, p ≠ ObjProp.assign "changeDetection" (PropInit.propAcc fin)) :
    (l.foldl applyMetaProp m).changeDetection = m.changeDetection := by
  induction l generalizing m with
  | nil => rfl
  | cons p t ih =>
    rw [List.foldl_cons, ih _ (fun q hq => h q (List.mem_cons_of_mem _ hq))]
    have hne := h p (List.mem_cons_self _ _)
    cases p with
    | otherProp => rfl
    | assign nm init =>
      simp only [applyMetaProp]
      split_ifs with hs ht hc
      · cases init <;> rfl
      · cases init <;> rfl
      · cases init with
        | strLit s => rfl
        | otherInit => rfl
        | propAcc fin =>
          exact absurd (by rw [eq_of_beq hc]) (hne fin)
      · rfl

/-- C3: the change-detection rule emits its (high-severity)
`missing-onpush` finding exactly when the declared mode is absent or
not `OnPush` and the complexity classifier fires; a metadata object
literal whose (last) `changeDetection` property is a property access
ending in `OnPush` parses to the declared mode `OnPush`, and with that
mode zero `missing-onpush` findings are produced regardless of
complexity. -/
theorem claim3_missing_onpush (info : ComponentInfo) (props1 props2 : List ObjProp)
    (hp : ∀ p ∈ props2, ∀ fin, p ≠ ObjProp.assign "changeDetection" (PropInit.propAcc fin)) :
    ((analyzeChangeDetection info).countP (fun i => i.type == CdType.missingOnpush)
        = if (jsFalsyStr info.metadata.changeDetection
                || info.metadata.changeDetection != some "OnPush")
              && shouldRecommendOnPush info.sourceCode info.templateCode
          then 1 else 0)
      ∧ (∀ i ∈ analyzeChangeDetection info,
          i.type = CdType.missingOnpush → i.severity = Severity.high)
      ∧ (parseComponentMetadata
            (props1 ++ ObjProp.assign "changeDetection" (PropInit.propAcc "OnPush") :: props2)).changeDetection
          = some "OnPush"
      ∧ (info.metadata.changeDetection = some "OnPush" →
          (analyzeChangeDetection info).countP (fun i => i.type == CdType.missingOnpush) = 0) := by
  have hcount : (analyzeChangeDetection info).countP (fun i => i.type == CdType.missingOnpush)
      = if (jsFalsyStr info.metadata.changeDetection
              || info.metadata.changeDetection != some "OnPush")
            && shouldRecommendOnPush info.sourceCode info.templateCode
        then 1 else 0 := by
    unfold analyzeChangeDetection
    rw [List.countP_append, List.countP_append]
    have h2 : ((if info.templateCode != "" then
          (scanFuncCalls info.templateCode.toList).map mkFuncCallIssue
        else []) : List CdIssue).countP (fun i => i.type == CdType.missingOnpush) = 0 := by
      split_ifs
      · exact countP_map_eq_zero _ _ _ (fun x => by simp [mkFuncCallIssue])
      · rfl
    have h3 : ((if info.templateCode != "" then
          (scanObjComp info.templateCode.toList).map mkObjCompIssue
        else []) : List CdIssue).countP (fun i => i.type == CdType.missingOnpush) = 0 := by
      split_ifs
      · exact countP_map_eq_zero _ _ _ (fun x => by simp [mkObjCompIssue])
      · rfl
    rw [h2, h3]
    cases hg : (jsFalsyStr info.metadata.changeDetection
        || info.metadata.changeDetection != some "OnPush") <;>
      cases hs : shouldRecommendOnPush info.sourceCode info.templateCode <;>
        simp [hg, hs, onPushProblem]
  refine ⟨hcount, ?_, ?_, ?_⟩
  · intro i hi hty
    unfold analyzeChangeDetection at hi
    rcases List.mem_append.mp hi with h | h
    · rcases List.mem_append.mp h with h | h
      · split_ifs at h
        · rcases List.mem_singleton.mp h with rfl
          rfl
        · simp at h
        · simp at h
      · split_ifs at h
        · rcases List.mem_map.mp h with ⟨nm, _, rfl⟩
          simp [mkFuncCallIssue] at hty
        · simp at h
    · split_ifs at h
      · rcases List.mem_map.mp h with ⟨e, _, rfl⟩
        simp [mkObjCompIssue] at hty
      · simp at h
  · unfold parseComponentMetadata
    rw [List.foldl_append, List.foldl_cons, fold_preserves_cd _ _ hp]
    simp [applyMetaProp]
  · intro h
    rw [hcount, h]
    simp [jsFalsyStr]

def infoOnPushEx : ComponentInfo :=
  { name := "X", sourceCode := "ngOnInit() ngOnDestroy()", templateCode := "",
    metadata := { defaultMetadata with changeDetection := some "OnPush" } }

theorem claim3_missing_onpush_witness :
    (parseComponentMetadata
        [ObjProp.assign "changeDetection" (PropInit.propAcc "OnPush")]).changeDetection
        = some "OnPush"
      ∧ (analyzeChangeDetection infoOnPushEx).countP
          (fun i => i.type == CdType.missingOnpush) = 0 :=
  ⟨(claim3_missing_onpush infoOnPushEx [] [] (by simp)).2.2.1,
   (claim3_missing_onpush infoOnPushEx [] [] (by simp)).2.2.2 (by decide)⟩

/-! ## Claim C4 -/

/-- Modelled from the claim's wording: a structural template probe
match among list-rendering, conditional, switch, event-binding and
property-binding syntax only — without the interpolation probe that the
code's `templateComplexityIndicators` array additionally contains. -/
def specStructuralMatch (tpl : String) : Bool :=
  rtest tNgFor tpl || rtest tNgIf tpl || rtest tNgSwitch tpl
    || rtest tEventBind tpl || rtest tPropBind tpl

/-- Modelled from the claim's wording: the decision rule as the claim
states it (structural probes only in the middle disjunct). -/
def specC4Decision (src tpl : String) : Bool :=
  decide (sourceComplexityCount src ≥ 2)
    || (specStructuralMatch tpl && decide (sourceComplexityCount src ≥ 1))
    || decide (countInterp tpl.toList > 3)

/-- C4 counterexample: on the source `ngOnInit()` (exactly one source
probe fires) with the template `{{x}}` (no structural probe, a single
interpolation), `shouldRecommendOnPush` returns `true` although the
claim's decision rule yields `false`: the code's template-complexity OR
also contains the interpolation probe. -/
theorem claim4_counterexample :
    shouldRecommendOnPush "ngOnInit()" "\x7b\x7bx\x7d\x7d" = true
      ∧ specC4Decision "ngOnInit()" "\x7b\x7bx\x7d\x7d" = false
      ∧ sourceComplexityCount "ngOnInit()" = 1
      ∧ specStructuralMatch "\x7b\x7bx\x7d\x7d" = false
      ∧ countInterp "\x7b\x7bx\x7d\x7d".toList = 1 := by
  decide

theorem foldl_count_eq_countP {α : Type} (p : α → Bool) (l : List α) (n : Nat) :
    l.foldl (fun cnt x => cnt + (if p x then 1 else 0)) n = n + l.countP p := by
  induction l generalizing n with
  | nil => simp
  | cons a t ih =>
    by_cases h : p a
    · simp [h, ih, List.countP_cons]
      omega
    · simp [h, ih, List.countP_cons]

/-- C4 (amended): the classifier returns true iff the source-probe
count is at least 2, or the template has a probe match among
list-rendering, conditional, switch, event-binding, property-binding
*or interpolation* syntax and the source-probe count is at least 1, or
the interpolation occurrence count exceeds 3; each source probe is
counted at most once (the count is a `countP` over the fixed probe
list). -/
theorem claim4_amended (src tpl : String) :
    shouldRecommendOnPush src tpl =
        (decide (complexityIndicators.countP (fun p => rtest p src) ≥ 2)
          || ((specStructuralMatch tpl || rtest tInterp tpl)
                && decide (complexityIndicators.countP (fun p => rtest p src) ≥ 1))
          || decide (countInterp tpl.toList > 3))
      ∧ sourceComplexityCount src = complexityIndicators.countP (fun p => rtest p src) := by
  have hc : sourceComplexityCount src
      = complexityIndicators.countP (fun p => rtest p src) := by
    unfold sourceComplexityCount
    rw [foldl_count_eq_countP]
    omega
  have ht : hasTemplateComplexity tpl
      = (specStructuralMatch tpl || rtest tInterp tpl) := by
    unfold hasTemplateComplexity templateComplexityIndicators specStructuralMatch
    simp [List.any_cons, Bool.or_assoc]
  refine ⟨?_, hc⟩
  simp only [shouldRecommendOnPush]
  rw [ht, hc]

/-! ## Claim C7 -/

theorem countP_map_eq_length {α β : Type} (f : α → β) (p : β → Bool) (l : List α)
    (h : ∀ x, p (f x) = true) : (l.map f).countP p = l.length := by
  induction l with
  | nil => rfl
  | cons a t ih => simp [List.countP_cons, ih, h]

/-- C7: a low-severity `multiple-subscriptions` finding is appended if
and only if the number of `subscribe` call expressions exceeds 3, its
description embeds the exact count, and each such call yields one
medium-severity `manual-subscription` finding. -/
theorem claim7_subscriptions (ast : TsNode) :
    ((analyzeSubscriptions ast).countP (fun i => i.type == SubType.multipleSubscriptions)
        = if (subsIn ast).length > 3 then 1 else 0)
      ∧ (∀ i ∈ analyzeSubscriptions ast, i.type = SubType.multipleSubscriptions →
          i.severity = Severity.low
            ∧ i.description = "Component has " ++ toString (subsIn ast).length
                ++ " manual subscriptions")
      ∧ (analyzeSubscriptions ast).countP (fun i => i.type == SubType.manualSubscription)
          = (subsIn ast).length
      ∧ (∀ i ∈ analyzeSubscriptions ast, i.type = SubType.manualSubscription →
          i.severity = Severity.medium) := by
  refine ⟨?_, ?_, ?_, ?_⟩
  · unfold analyzeSubscriptions
    rw [List.countP_append]
    rw [countP_map_eq_zero mkManualSub _ _ (fun x => by simp [mkManualSub])]
    split_ifs with h
    · simp [mkMultipleSubs]
    · rfl
  · intro i hi hty
    unfold analyzeSubscriptions at hi
    rcases List.mem_append.mp hi with h | h
    · rcases List.mem_map.mp h with ⟨v, _, rfl⟩
      simp [mkManualSub] at hty
    · split_ifs at h
      · rcases List.mem_singleton.mp h with rfl
        exact ⟨rfl, rfl⟩
      · simp at h
  · unfold analyzeSubscriptions
    rw [List.countP_append]
    rw [countP_map_eq_length mkManualSub _ _ (fun x => by simp [mkManualSub])]
    split_ifs with h
    · simp [mkMultipleSubs]
    · rfl
  · intro i hi hty
    unfold analyzeSubscriptions at hi
    rcases List.mem_append.mp hi with h | h
    · rcases List.mem_map.mp h with ⟨v, _, rfl⟩
      rfl
    · split_ifs at h
      · rcases List.mem_singleton.mp h with rfl
        simp [mkMultipleSubs] at hty
      · simp at h

def subCallNode (v : String) : TsNode :=
  .callExpr (.propAccess (.ident v) "subscribe") [.ident "cb"]

def astSub4 : TsNode :=
  .node [subCallNode "a", subCallNode "b", subCallNode "c", subCallNode "d"]

theorem claim7_subscriptions_witness :
    (mkMultipleSubs 4 ∈ analyzeSubscriptions astSub4)
      ∧ ((mkMultipleSubs 4).severity = Severity.low
          ∧ (mkMultipleSubs 4).description
              = "Component has " ++ toString (subsIn astSub4).length
                  ++ " manual subscriptions") :=
  ⟨by decide,
   (claim7_subscriptions astSub4).2.1 (mkMultipleSubs 4) (by decide) (by decide)⟩

/-! ## Claim C8 -/

/-- C8 counterexample: the template `{{ user$ }}` interpolates the bare
identifier `user$`, which ends in the `$` stream marker, yet the
analyzer records no async-pipe-opportunity usage at all: the capture
class `\w` of `/\{\{\s*(\w+)\s*\}\}/` cannot match `$`, so the
interpolation is never captured in the first place. -/
def infoDollar : ComponentInfo :=
  { name := "", sourceCode := "", templateCode := "\x7b\x7b user$ \x7d\x7d",
    metadata := defaultMetadata }

theorem claim8_counterexample :
    strIncludes infoDollar.templateCode "user$" = true
      ∧ scanInterpIdents infoDollar.templateCode.toList = []
      ∧ findSubscriptionUsagesInTemplate infoDollar.templateCode = []
      ∧ (analyzeTemplate infoDollar).countP
          (fun i => i.type == TplType.asyncPipeOpportunity) = 0 := by
  decide

theorem scanWithF_emitted {f : List Char → Option (String × List Char)}
    (P : String → Prop) (hf : ∀ s x rem, f s = some (x, rem) → P x) :
    ∀ fuel s, ∀ x ∈ scanWithF f fuel s, P x := by
  intro fuel
  induction fuel with
  | zero =>
    intro s x hx
    simp [scanWithF] at hx
  | succ n ih =>
    intro s x hx
    cases s with
    | nil => simp [scanWithF] at hx
    | cons c rest =>
      simp only [scanWithF] at hx
      cases hfa : f (c :: rest) with
      | none =>
        rw [hfa] at hx
        exact ih rest x hx
      | some pr =>
        obtain ⟨y, rem⟩ := pr
        rw [hfa] at hx
        rcases List.mem_cons.mp hx with rfl | hx
        · exact hf _ _ _ hfa
        · exact ih rem x hx

theorem interpIdentAt_wordlike :
    ∀ s x rem, interpIdentAt s = some (x, rem) → ∀ c ∈ x.toList, isWordChar c := by
  intro s x rem h c hc
  unfold interpIdentAt at h
  split at h
  · simp only [] at h
    split at h
    · exact absurd h (by simp)
    · split at h
      · cases h
        exact List.mem_takeWhile_imp hc
      · exact absurd h (by simp)
  · exact absurd h (by simp)

theorem listIncl_dollar_eq_false (l : List Char) (h : ∀ c ∈ l, isWordChar c) :
    listIncl ['$'] l = false := by
  induction l with
  | nil => rfl
  | cons c rest ih =>
    have hcw := h c (List.mem_cons_self _ _)
    have hne : ('$' == c) = false := by
      by_contra hx
      rw [← eq_of_beq (eq_true_of_ne_false hx)] at hcw
      exact absurd hcw (by decide)
    simp [listIncl, List.isPrefixOf, hne,
      ih (fun d hd => h d (List.mem_cons_of_mem _ hd))]

/-- C8 (amended): the interpolation capture class `\w` excludes `$`, so
a captured identifier never contains the stream marker and the
`$`-branch of `isSubscriptionVariable` is unreachable from templates;
an async-pipe-opportunity usage is recorded exactly for the captured
bare identifiers containing "subscription", "observable" or "stream"
as a case-sensitive substring. -/
theorem claim8_amended (t : String) :
    findSubscriptionUsagesInTemplate t
        = (scanInterpIdents t.toList).filter
            (fun w => strIncludes w "subscription" || strIncludes w "observable"
              || strIncludes w "stream")
      ∧ ∀ w ∈ scanInterpIdents t.toList, strIncludes w "$" = false := by
  have hword : ∀ w ∈ scanInterpIdents t.toList, ∀ c ∈ w.toList, isWordChar c :=
    scanWithF_emitted _ interpIdentAt_wordlike t.toList.length t.toList
  have hdollar : ∀ w ∈ scanInterpIdents t.toList, strIncludes w "$" = false := by
    intro w hw
    exact listIncl_dollar_eq_false w.toList (hword w hw)
  refine ⟨?_, hdollar⟩
  unfold findSubscriptionUsagesInTemplate
  apply List.filter_congr
  intro w hw
  unfold isSubscriptionVariable
  rw [hdollar w hw]
  simp

theorem claim8_amended_witness :
    ("stream1" ∈ scanInterpIdents "\x7b\x7bstream1\x7d\x7d".toList)
      ∧ strIncludes "stream1" "$" = false :=
  ⟨by decide, (claim8_amended "\x7b\x7bstream1\x7d\x7d").2 "stream1" (by decide)⟩

/-! ## Claim C9 -/

def mkInfoTpl (t : String) : ComponentInfo :=
  { name := "", sourceCode := "", templateCode := t, metadata := defaultMetadata }

def infoNgForUsers : ComponentInfo :=
  mkInfoTpl "<div *ngFor=\"let u of users\"></div>"

/-- C9: the template `<div *ngFor="let u of users"></div>` yields
exactly one (high-severity) missing-trackby finding and zero
large-ngfor findings — the vocabulary estimate for "users" is the
constant 50, which does not exceed 100 — and in general the
missing-trackBy rule produces exactly one finding per `*ngFor`
occurrence whose expression lacks the `trackBy` token, hence never
fires when the token is present. -/
theorem claim9_trackby (t : String) :
    ((analyzeTemplate infoNgForUsers).countP
        (fun i => i.type == TplType.missingTrackby) = 1)
      ∧ ((analyzeTemplate infoNgForUsers).countP
          (fun i => i.type == TplType.largeNgfor) = 0)
      ∧ estimateLoopSize "let u of users" = some 50
      ∧ ((analyzeTemplate (mkInfoTpl t)).countP
            (fun i => i.type == TplType.missingTrackby)
          = (scanNgFor t.toList).countP (fun e => !strIncludes e "trackBy")) := by
  refine ⟨by decide, by decide, by decide, ?_⟩
  unfold analyzeTemplate
  cases ht : ((mkInfoTpl t).templateCode == "") with
  | true =>
    have h0 : t = "" := eq_of_beq ht
    subst h0
    decide
  | false =>
    simp only [ht, Bool.false_eq_true, if_false]
    rw [List.countP_append, List.countP_append]
    rw [countP_map_eq_length (fun e => mkMissingTrackby (estimateLoopSize e)) _ _
          (fun x => by simp [mkMissingTrackby])]
    rw [countP_map_eq_zero (fun _ => asyncPipeIssue) _ _
          (fun x => by simp [asyncPipeIssue])]
    rw [countP_map_eq_zero (fun e => mkLargeNgfor ((estimateLoopSize e).getD 0)) _ _
          (fun x => by simp [mkLargeNgfor])]
    rw [List.countP_eq_length_filter]
    simp [mkInfoTpl]

/-! ## Claim C6 -/

theorem foldClass_meta (entries : List (String × Option (List ObjProp)))
    (acc : String × ComponentMetadata)
    (h : ∀ e ∈ entries, e.2 = none) :
    (entries.foldl applyClass acc).2 = acc.2 := by
  induction entries generalizing acc with
  | nil => rfl
  | cons e rest ih =>
    rw [List.foldl_cons, ih _ (fun q hq => h q (List.mem_cons_of_mem _ hq))]
    have he := h e (List.mem_cons_self _ _)
    unfold applyClass
    rw [he]

def lkNone : String → Option String := fun _ => none

def subFileEx : SourceFileModel :=
  { ast := .node [subCallNode "x"], text := "x.subscribe(cb);" }

/-- C6 counterexample: a source file containing no class at all (one
bare `x.subscribe(cb)` call) parses to an empty name and default
metadata, but the analysis still produces a manual-subscription finding
and scores 90, not 100. -/
theorem claim6_counterexample :
    classList subFileEx.ast = []
      ∧ (parseComponentFile lkNone subFileEx).name = ""
      ∧ (parseComponentFile lkNone subFileEx).metadata = defaultMetadata
      ∧ (analyzeComponent lkNone subFileEx).subscriptionIssues.length = 1
      ∧ (analyzeComponent lkNone subFileEx).performanceScore = 90 := by
  decide

/-- C6 (amended/corrected): when no class (or no `@Component`-annotated
class) is found, the metadata keeps its defaults, the template is empty
and the template family produces no findings; the change-detection
family degenerates to the source-text-driven missing-onpush check, but
subscription (and bundle) findings can still arise from the source
text, so the score need not be 100.  The name is empty only in the
no-class case (a class without annotation still sets the name). -/
theorem claim6_amended (lookup : String → Option String) (f : SourceFileModel)
    (h : ∀ e ∈ classList f.ast, e.2 = (none : Option (List ObjProp))) :
    (parseComponentFile lookup f).metadata = defaultMetadata
      ∧ (parseComponentFile lookup f).templateCode = ""
      ∧ analyzeTemplate (parseComponentFile lookup f) = []
      ∧ analyzeChangeDetection (parseComponentFile lookup f)
          = (if shouldRecommendOnPush f.text "" then [onPushProblem] else [])
      ∧ (classList f.ast = [] → (parseComponentFile lookup f).name = "") := by
  have hm : ((classList f.ast).foldl applyClass ("", defaultMetadata)).2
      = defaultMetadata := foldClass_meta _ _ h
  have hmeta : (parseComponentFile lookup f).metadata = defaultMetadata := by
    simp only [parseComponentFile]
    exact hm
  have htpl : (parseComponentFile lookup f).templateCode = "" := by
    simp only [parseComponentFile]
    rw [hm]
    rfl
  have hsrc : (parseComponentFile lookup f).sourceCode = f.text := by
    simp only [parseComponentFile]
  refine ⟨hmeta, htpl, ?_, ?_, ?_⟩
  · unfold analyzeTemplate
    rw [htpl]
    rfl
  · unfold analyzeChangeDetection
    rw [hmeta, htpl, hsrc]
    simp [jsFalsyStr, defaultMetadata]
  · intro hnil
    simp only [parseComponentFile, hnil]
    rfl

theorem claim6_amended_witness :
    (∀ e ∈ classList subFileEx.ast, e.2 = (none : Option (List ObjProp)))
      ∧ (parseComponentFile lkNone subFileEx).metadata = defaultMetadata
      ∧ analyzeTemplate (parseComponentFile lkNone subFileEx) = [] :=
  ⟨by decide,
   (claim6_amended lkNone subFileEx (by decide)).1,
   (claim6_amended lkNone subFileEx (by decide)).2.2.1⟩

/-! ## Claim C2 -/

/-- `issueBreakdown[k]` as a JavaScript property read: present with a
(possibly NaN) count, or absent. -/
def lookupEnt (b : List Ent) (k : String) : Option (Option Nat) :=
  (b.find? (fun e => e.1 == k)).map (fun e => e.2)

def subFile4 : SourceFileModel :=
  { ast := astSub4,
    text := "a.subscribe(cb); b.subscribe(cb); c.subscribe(cb); d.subscribe(cb);" }

def infoObjCmp : ComponentInfo := mkInfoTpl "<div *ngIf=\"a.b === c\"></div>"

/-- C2 (refuted; the claim states the intended contract, the code
violates it): the rule evaluators do produce the kinds
`multiple-subscriptions` (four subscribe calls) and `object-comparison`
(an `*ngIf` equality on a property access), yet neither key is in the
aggregator's fixed histogram key set; the increment then performs
JavaScript `undefined + 1 = NaN`, so the summary maps the produced kind
`multiple-subscriptions` to NaN (modelled `none`), not to a
non-negative integer count. -/
theorem claim2_histogram_gap :
    ("object-comparison" ∉ sixKindKeys)
      ∧ ("multiple-subscriptions" ∉ sixKindKeys)
      ∧ (∃ i ∈ (analyzeComponent lkNone subFile4).subscriptionIssues,
          i.type = SubType.multipleSubscriptions)
      ∧ (∃ i ∈ analyzeChangeDetection infoObjCmp, i.type = CdType.objectComparison)
      ∧ lookupEnt (buildBreakdown [analyzeComponent lkNone subFile4])
            "multiple-subscriptions"
          = some none := by
  decide

/-! ## Claim C10: lemmas about the histogram shape and the stable sort -/

theorem entGt_none_left (e x : Ent) (h : e.2 = none) : entGt e x = false := by
  unfold entGt
  rw [h]

theorem mem_insertEnt {x a : Ent} {l : List Ent} :
    a ∈ insertEnt x l ↔ a = x ∨ a ∈ l := by
  induction l with
  | nil => simp [insertEnt]
  | cons y ys ih =>
    unfold insertEnt
    split_ifs
    · simp only [List.mem_cons, ih]
      tauto
    · simp only [List.mem_cons]

theorem insertEnt_perm (x : Ent) (l : List Ent) :
    List.Perm (insertEnt x l) (x :: l) := by
  induction l with
  | nil => exact List.Perm.refl _
  | cons y ys ih =>
    unfold insertEnt
    split_ifs
    · exact (ih.cons y).trans (List.Perm.swap x y ys)
    · exact List.Perm.refl _

theorem sortEnts_perm (l : List Ent) : List.Perm (sortEnts l) l := by
  induction l with
  | nil => exact List.Perm.refl _
  | cons x xs ih =>
    exact (insertEnt_perm x (sortEnts xs)).trans (ih.cons x)

theorem bump_noneTail (extras : List Ent) (k : String)
    (h : ∀ e ∈ extras, e.2 = none) :
    ∀ e ∈ bump extras k, e.2 = none := by
  induction extras with
  | nil =>
    intro e he
    simp [bump] at he
    simp [he]
  | cons p rest ih =>
    intro e he
    obtain ⟨k2, v⟩ := p
    unfold bump at he
    split_ifs at he
    · rcases List.mem_cons.mp he with rfl | hmem
      · have hv := h (k2, v) (List.mem_cons_self _ _)
        simp at hv
        simp [hv, jsInc]
      · exact h _ (List.mem_cons_of_mem _ hmem)
    · rcases List.mem_cons.mp he with rfl | hmem
      · exact h _ (List.mem_cons_self _ _)
      · exact ih (fun q hq => h q (List.mem_cons_of_mem _ hq)) _ hmem

/-- The shape invariant of the `issuesByType` object: the six declared
keys with numeric counts first, then the keys appended by out-of-set
increments, all NaN. -/
def SixShape (b : List Ent) : Prop :=
  ∃ c1 c2 c3 c4 c5 c6 extras,
    b = ("missing-onpush", some c1) :: ("function-in-template", some c2)
      :: ("missing-trackby", some c3) :: ("manual-subscription", some c4)
      :: ("async-pipe-opportunity", some c5) :: ("large-ngfor", some c6) :: extras
    ∧ ∀ e ∈ extras, e.2 = none

theorem bump_sixShape (b : List Ent) (k : String) (h : SixShape b) :
    SixShape (bump b k) := by
  obtain ⟨c1, c2, c3, c4, c5, c6, extras, rfl, hex⟩ := h
  simp only [bump]
  split_ifs with h1 h2 h3 h4 h5 h6
  · exact ⟨c1 + 1, c2, c3, c4, c5, c6, extras, rfl, hex⟩
  · exact ⟨c1, c2 + 1, c3, c4, c5, c6, extras, rfl, hex⟩
  · exact ⟨c1, c2, c3 + 1, c4, c5, c6, extras, rfl, hex⟩
  · exact ⟨c1, c2, c3, c4 + 1, c5, c6, extras, rfl, hex⟩
  · exact ⟨c1, c2, c3, c4, c5 + 1, c6, extras, rfl, hex⟩
  · exact ⟨c1, c2, c3, c4, c5, c6 + 1, extras, rfl, hex⟩
  · exact ⟨c1, c2, c3, c4, c5, c6, bump extras k, rfl, bump_noneTail extras k hex⟩

theorem foldBump_sixShape (ks : List String) (b : List Ent) (h : SixShape b) :
    SixShape (ks.foldl bump b) := by
  induction ks generalizing b with
  | nil => exact h
  | cons k rest ih => exact ih _ (bump_sixShape b k h)

theorem foldAnalyses_sixShape (analyses : List ComponentAnalysis) (b : List Ent)
    (h : SixShape b) :
    SixShape (analyses.foldl (fun b a => (analysisKinds a).foldl bump b) b) := by
  induction analyses generalizing b with
  | nil => exact h
  | cons a rest ih => exact ih _ (foldBump_sixShape _ b h)

theorem sixShape_buildBreakdown (analyses : List ComponentAnalysis) :
    SixShape (buildBreakdown analyses) :=
  foldAnalyses_sixShape analyses initBreakdown
    ⟨0, 0, 0, 0, 0, 0, [], rfl, by simp⟩

theorem insertEnt_append_none (x : Ent) (l extras : List Ent)
    (h : ∀ e ∈ extras, e.2 = none) :
    insertEnt x (l ++ extras) = insertEnt x l ++ extras := by
  induction l with
  | nil =>
    cases extras with
    | nil => rfl
    | cons e es =>
      simp only [List.nil_append, insertEnt]
      rw [entGt_none_left e x (h e (List.mem_cons_self _ _))]
      rfl
  | cons y ys ih =>
    simp only [List.cons_append, insertEnt, List.append_eq]
    split_ifs
    · rw [ih]
      rfl
    · rfl

theorem sortEnts_none_fixed (extras : List Ent) (h : ∀ e ∈ extras, e.2 = none) :
    sortEnts extras = extras := by
  induction extras with
  | nil => rfl
  | cons e es ih =>
    simp only [sortEnts]
    rw [ih (fun q hq => h q (List.mem_cons_of_mem _ hq))]
    cases es with
    | nil => rfl
    | cons f fs =>
      simp only [insertEnt]
      rw [entGt_none_left f e (h f (List.mem_cons_of_mem _ (List.mem_cons_self _ _)))]
      rfl

theorem sortEnts_append_none (l extras : List Ent)
    (h : ∀ e ∈ extras, e.2 = none) :
    sortEnts (l ++ extras) = sortEnts l ++ extras := by
  induction l with
  | nil =>
    simp only [List.nil_append, sortEnts]
    exact sortEnts_none_fixed extras h
  | cons x xs ih =>
    simp only [List.cons_append, sortEnts, List.append_eq]
    rw [ih, insertEnt_append_none x (sortEnts xs) extras h]

/-- The fixed enumeration order of the histogram keys. -/
def keyPos : String → Nat
  | "missing-onpush" => 0
  | "function-in-template" => 1
  | "missing-trackby" => 2
  | "manual-subscription" => 3
  | "async-pipe-opportunity" => 4
  | "large-ngfor" => 5
  | _ => 6

/-- The ordering the claim describes: strictly larger count first, ties
resolved by the fixed histogram key enumeration order. -/
def entPrec (a b : Ent) : Prop :=
  ∃ m n, a.2 = some m ∧ b.2 = some n
    ∧ (m > n ∨ (m = n ∧ keyPos a.1 < keyPos b.1))

theorem entPrec_trans {a b c : Ent} (h1 : entPrec a b) (h2 : entPrec b c) :
    entPrec a c := by
  obtain ⟨m, n, ham, hbn, hor1⟩ := h1
  obtain ⟨n2, p, hbn2, hcp, hor2⟩ := h2
  rw [hbn] at hbn2
  injection hbn2 with hnn
  subst hnn
  exact ⟨m, p, ham, hcp, by omega⟩

theorem insertEnt_pairwise (x : Ent) (m : List Ent)
    (hPW : m.Pairwise entPrec)
    (hx : ∃ cx, x.2 = some cx)
    (hall : ∀ y ∈ m, (∃ cy, y.2 = some cy) ∧ keyPos x.1 < keyPos y.1) :
    (insertEnt x m).Pairwise entPrec := by
  induction m with
  | nil => simp [insertEnt]
  | cons y ys ih =>
    rw [List.pairwise_cons] at hPW
    obtain ⟨hy_all, hys⟩ := hPW
    unfold insertEnt
    split_ifs with hg
    · rw [List.pairwise_cons]
      constructor
      · intro z hz
        rcases mem_insertEnt.mp hz with rfl | hz2
        · obtain ⟨cx, hcx⟩ := hx
          obtain ⟨⟨cy, hcy⟩, _⟩ := hall y (List.mem_cons_self _ _)
          unfold entGt at hg
          rw [hcy, hcx] at hg
          exact ⟨cy, cx, hcy, hcx, Or.inl (of_decide_eq_true hg)⟩
        · exact hy_all z hz2
      · exact ih hys (fun z hz => hall z (List.mem_cons_of_mem _ hz))
    · rw [List.pairwise_cons]
      constructor
      · intro z hz
        have hxy : entPrec x y := by
          obtain ⟨cx, hcx⟩ := hx
          obtain ⟨⟨cy, hcy⟩, hpos⟩ := hall y (List.mem_cons_self _ _)
          unfold entGt at hg
          rw [hcy, hcx] at hg
          have hle : ¬(cy > cx) := by simpa using hg
          exact ⟨cx, cy, hcx, hcy, by omega⟩
        rcases List.mem_cons.mp hz with rfl | hz2
        · exact hxy
        · exact entPrec_trans hxy (hy_all z hz2)
      · exact List.pairwise_cons.mpr ⟨hy_all, hys⟩

theorem sortEnts_pairwise (l : List Ent)
    (hsome : ∀ e ∈ l, ∃ c, e.2 = some c)
    (hinc : l.Pairwise (fun a b => keyPos a.1 < keyPos b.1)) :
    (sortEnts l).Pairwise entPrec := by
  induction l with
  | nil => simp [sortEnts]
  | cons x xs ih =>
    rw [List.pairwise_cons] at hinc
    obtain ⟨hx_lt, hxs⟩ := hinc
    simp only [sortEnts]
    apply insertEnt_pairwise
    · exact ih (fun e he => hsome e (List.mem_cons_of_mem _ he)) hxs
    · exact hsome x (List.mem_cons_self _ _)
    · intro y hy
      have hy_mem : y ∈ xs := ((sortEnts_perm xs).mem_iff).mp hy
      exact ⟨hsome y (List.mem_cons_of_mem _ hy_mem), hx_lt y hy_mem⟩

theorem foldAnalyses_no_kinds (analyses : List ComponentAnalysis) (b : List Ent)
    (hall : ∀ a ∈ analyses, analysisKinds a = []) :
    analyses.foldl (fun b a => (analysisKinds a).foldl bump b) b = b := by
  induction analyses generalizing b with
  | nil => rfl
  | cons a rest ih =>
    rw [List.foldl_cons, hall a (List.mem_cons_self _ _), List.foldl_nil]
    exact ih b (fun q hq => hall q (List.mem_cons_of_mem _ hq))

theorem buildBreakdown_no_kinds (analyses : List ComponentAnalysis)
    (hall : ∀ a ∈ analyses, analysisKinds a = []) :
    buildBreakdown analyses = initBreakdown :=
  foldAnalyses_no_kinds analyses initBreakdown hall

/-- C10: the project summary's topIssues list always has exactly three
entries, all drawn from the six fixed histogram keys; it is the
three-entry prefix of a permutation of the six histogram entries that
is sorted by descending count with ties resolved in the histogram's
fixed key enumeration order; and when no findings exist (in particular
for the empty analysis sequence) the three entries are the first three
keys with count 0. -/
theorem claim10_top_issues (analyses : List ComponentAnalysis) (succ err : Nat) :
    ((generateProjectSummary analyses succ err).topIssues).length = 3
      ∧ (∀ e ∈ (generateProjectSummary analyses succ err).topIssues,
          e.1 ∈ sixKindKeys)
      ∧ (∃ ss : List Ent,
          List.Perm ss ((buildBreakdown analyses).take 6)
            ∧ ss.Pairwise entPrec
            ∧ (generateProjectSummary analyses succ err).topIssues = ss.take 3)
      ∧ ((∀ a ∈ analyses, analysisKinds a = []) →
          (generateProjectSummary analyses succ err).topIssues
            = [("missing-onpush", some 0), ("function-in-template", some 0),
               ("missing-trackby", some 0)]) := by
  obtain ⟨c1, c2, c3, c4, c5, c6, extras, hb, hex⟩ := sixShape_buildBreakdown analyses
  set six : List Ent :=
    [("missing-onpush", some c1), ("function-in-template", some c2),
     ("missing-trackby", some c3), ("manual-subscription", some c4),
     ("async-pipe-opportunity", some c5), ("large-ngfor", some c6)] with hsix
  have hb2 : buildBreakdown analyses = six ++ extras := by rw [hb]; rfl
  have hlen6 : (sortEnts six).length = 6 := by
    rw [(sortEnts_perm six).length_eq, hsix]
    rfl
  have htop : (generateProjectSummary analyses succ err).topIssues
      = (sortEnts six).take 3 := by
    have hproj : (generateProjectSummary analyses succ err).topIssues
        = (sortEnts (buildBreakdown analyses)).take 3 := rfl
    rw [hproj, hb2, sortEnts_append_none six extras hex,
      List.take_append_of_le_length (by rw [hlen6]; norm_num)]
  have hsome : ∀ e ∈ six, ∃ c, e.2 = some c := by
    intro e he
    simp only [hsix, List.mem_cons, List.not_mem_nil, or_false] at he
    rcases he with rfl | rfl | rfl | rfl | rfl | rfl <;> exact ⟨_, rfl⟩
  have hkeys : List.Pairwise (fun a b => keyPos a < keyPos b) sixKindKeys := by
    decide
  have hmapped : List.Pairwise (fun a b => keyPos a < keyPos b) (six.map Prod.fst) :=
    hkeys
  have hinc : six.Pairwise (fun a b => keyPos a.1 < keyPos b.1) :=
    (@List.pairwise_map Ent String Prod.fst (fun a b => keyPos a < keyPos b) six).mp
      hmapped
  refine ⟨?_, ?_, ?_, ?_⟩
  · rw [htop]
    simp [List.length_take, hlen6]
  · intro e he
    rw [htop] at he
    have h1 : e ∈ sortEnts six := List.take_subset _ _ he
    have h2 : e ∈ six := ((sortEnts_perm six).mem_iff).mp h1
    simp only [hsix, List.mem_cons, List.not_mem_nil, or_false] at h2
    rcases h2 with rfl | rfl | rfl | rfl | rfl | rfl <;> simp [sixKindKeys]
  · refine ⟨sortEnts six, ?_, ?_, htop⟩
    · have : (six ++ extras).take 6 = six :=
        List.take_left' (by rw [hsix]; rfl)
      rw [hb2, this]
      exact sortEnts_perm six
    · exact sortEnts_pairwise six hsome hinc
  · intro hall
    have hproj : (generateProjectSummary analyses succ err).topIssues
        = (sortEnts (buildBreakdown analyses)).take 3 := rfl
    rw [hproj, buildBreakdown_no_kinds analyses hall]
    decide

def fEmpty : SourceFileModel := { ast := .node [], text := "" }

theorem claim10_top_issues_witness :
    (∀ a ∈ [analyzeComponent lkNone fEmpty], analysisKinds a = [])
      ∧ (generateProjectSummary [analyzeComponent lkNone fEmpty] 1 0).topIssues
          = [("missing-onpush", some 0), ("function-in-template", some 0),
             ("missing-trackby", some 0)] :=
  ⟨by decide,
   (claim10_top_issues [analyzeComponent lkNone fEmpty] 1 0).2.2.2 (by decide)⟩

end NgPerf
